import Mathlib

/-!
Verification of the jam-session scheduling core of the Agent2Agent repository.

The embedding below translates `host_agent_adk/host/jam_session_tools.py`
(the slot calendar, the availability query and the booking operation) and the
remote-agent directory bits of `host_agent_adk/host/host_agent.py` into Lean.

Python dictionaries (insertion ordered) are modelled as association lists,
`datetime.strptime` with the formats `"%Y-%m-%d"` and `"%Y-%m-%d %H:%M"` is
modelled by a character-level parser that follows CPython's `_strptime`
regular expressions (`%Y` = four digits, `%m` = `1[0-2]|0[1-9]|[1-9]`,
`%d` = `3[01]|[12]\d|0[1-9]|[1-9]`, `%H` = `2[0-3]|[0-1]\d|\d`,
`%M` = `[0-5]\d|\d`, literal whitespace = one-or-more whitespace, the whole
input must be consumed) followed by the `datetime` constructor's calendar
validation (year at least 1, day at most the month length).  For these
particular formats ordered-choice parsing agrees with the backtracking regex:
every two-digit alternative is followed by a non-digit token, so a successful
shorter alternative can never be preempted by a failing longer one.
-/

set_option maxHeartbeats 1000000

namespace Agent2Agent

/-! ### Association lists modelling Python dicts (insertion ordered) -/

/-- Python `dict.get`: the value stored at `key`, if any. -/
def lookupA {α : Type} : List (String × α) → String → Option α
  | [], _ => none
  | (k, v) :: rest, key => if key = k then some v else lookupA rest key

/-- Python `dict[key] = val`: replace in place if the key exists (keeping its
position, as Python dicts do), otherwise append the new entry at the end. -/
def setA {α : Type} : List (String × α) → String → α → List (String × α)
  | [], key, val => [(key, val)]
  | (k, v) :: rest, key, val =>
      if key = k then (k, val) :: rest else (k, v) :: setA rest key val

/-! ### Calendar dates and `datetime` arithmetic -/

/-- Gregorian leap-year rule used by Python's `datetime`. -/
def isLeap (y : Nat) : Bool :=
  y % 4 == 0 && (y % 100 != 0 || y % 400 == 0)

/-- Length of a month, as validated by the `datetime` constructor. -/
def daysInMonth (y m : Nat) : Nat :=
  if m = 2 then (if isLeap y then 29 else 28)
  else if m = 4 ∨ m = 6 ∨ m = 9 ∨ m = 11 then 30
  else 31

/-- A calendar day, the payload of `datetime.date`. -/
structure CalDate where
  year : Nat
  month : Nat
  day : Nat
deriving DecidableEq

/-- Python `date + timedelta(days=1)` on a valid date. -/
def nextDay (d : CalDate) : CalDate :=
  if d.day < daysInMonth d.year d.month then ⟨d.year, d.month, d.day + 1⟩
  else if d.month < 12 then ⟨d.year, d.month + 1, 1⟩
  else ⟨d.year + 1, 1, 1⟩

/-- Python `date + timedelta(days=n)`. -/
def addDays (d : CalDate) : Nat → CalDate
  | 0 => d
  | n + 1 => nextDay (addDays d n)

/-- Zero-padded two-digit rendering, as in `strftime("%H")` or `f"{h:02}"`. -/
def pad2 (n : Nat) : String :=
  if n < 10 then "0" ++ toString n else toString n

/-- Zero-padded four-digit rendering, as in `strftime("%Y")`. -/
def pad4 (n : Nat) : String :=
  if n < 10 then "000" ++ toString n
  else if n < 100 then "00" ++ toString n
  else if n < 1000 then "0" ++ toString n
  else toString n

/-- Python `date.strftime("%Y-%m-%d")`. -/
def dateStr (d : CalDate) : String :=
  pad4 d.year ++ "-" ++ pad2 d.month ++ "-" ++ pad2 d.day

/-- An instant parsed by `datetime.strptime(s, "%Y-%m-%d %H:%M")`. -/
structure DT where
  year : Nat
  month : Nat
  day : Nat
  hour : Nat
  minute : Nat
deriving DecidableEq

/-- Mixed-radix key realizing `datetime` comparison: for field values within
their calendar ranges (month 1-12, day 1-31, hour 0-23, minute 0-59) this is
strictly monotone in the lexicographic field order. -/
def dtKey (t : DT) : Nat :=
  (((t.year * 13 + t.month) * 32 + t.day) * 24 + t.hour) * 60 + t.minute

/-- Python `datetime + timedelta(hours=1)` (for instants with hour at most
23, the only ones `strptime` produces). -/
def addHour (t : DT) : DT :=
  if t.hour + 1 ≤ 23 then ⟨t.year, t.month, t.day, t.hour + 1, t.minute⟩
  else
    let d := nextDay ⟨t.year, t.month, t.day⟩
    ⟨d.year, d.month, d.day, 0, t.minute⟩

/-- Python `datetime.strftime("%H:%M")`. -/
def fmtHM (t : DT) : String :=
  pad2 t.hour ++ ":" ++ pad2 t.minute

/-! ### The `strptime` model -/

/-- Numeric value of a digit character. -/
def dval (c : Char) : Nat := c.toNat - 48

/-- Matches the regex class `\d` on ASCII digits. -/
def isDig (c : Char) : Bool := 48 ≤ c.toNat && c.toNat ≤ 57

/-- Regex `\d\d\d\d` for `%Y`. -/
def parseY : List Char → Option (Nat × List Char)
  | c1 :: c2 :: c3 :: c4 :: rest =>
      if isDig c1 ∧ isDig c2 ∧ isDig c3 ∧ isDig c4 then
        some (((dval c1 * 10 + dval c2) * 10 + dval c3) * 10 + dval c4, rest)
      else none
  | _ => none

/-- Regex `1[0-2]|0[1-9]|[1-9]` for `%m`. -/
def parseMonth : List Char → Option (Nat × List Char)
  | c1 :: c2 :: rest =>
      if c1 = '1' ∧ isDig c2 ∧ dval c2 ≤ 2 then some (10 + dval c2, rest)
      else if c1 = '0' ∧ isDig c2 ∧ 1 ≤ dval c2 then some (dval c2, rest)
      else if isDig c1 ∧ 1 ≤ dval c1 then some (dval c1, c2 :: rest)
      else none
  | [c1] => if isDig c1 ∧ 1 ≤ dval c1 then some (dval c1, []) else none
  | [] => none

/-- Regex `3[01]|[12]\d|0[1-9]|[1-9]` for `%d`. -/
def parseDay : List Char → Option (Nat × List Char)
  | c1 :: c2 :: rest =>
      if c1 = '3' ∧ isDig c2 ∧ dval c2 ≤ 1 then some (30 + dval c2, rest)
      else if isDig c1 ∧ 1 ≤ dval c1 ∧ dval c1 ≤ 2 ∧ isDig c2 then
        some (dval c1 * 10 + dval c2, rest)
      else if c1 = '0' ∧ isDig c2 ∧ 1 ≤ dval c2 then some (dval c2, rest)
      else if isDig c1 ∧ 1 ≤ dval c1 then some (dval c1, c2 :: rest)
      else none
  | [c1] => if isDig c1 ∧ 1 ≤ dval c1 then some (dval c1, []) else none
  | [] => none

/-- Regex `2[0-3]|[0-1]\d|\d` for `%H`. -/
def parseHour : List Char → Option (Nat × List Char)
  | c1 :: c2 :: rest =>
      if c1 = '2' ∧ isDig c2 ∧ dval c2 ≤ 3 then some (20 + dval c2, rest)
      else if isDig c1 ∧ dval c1 ≤ 1 ∧ isDig c2 then
        some (dval c1 * 10 + dval c2, rest)
      else if isDig c1 then some (dval c1, c2 :: rest)
      else none
  | [c1] => if isDig c1 then some (dval c1, []) else none
  | [] => none

/-- Regex `[0-5]\d|\d` for `%M`. -/
def parseMin : List Char → Option (Nat × List Char)
  | c1 :: c2 :: rest =>
      if isDig c1 ∧ dval c1 ≤ 5 ∧ isDig c2 then
        some (dval c1 * 10 + dval c2, rest)
      else if isDig c1 then some (dval c1, c2 :: rest)
      else none
  | [c1] => if isDig c1 then some (dval c1, []) else none
  | [] => none

/-- Literal character of the format string. -/
def lit (ch : Char) : List Char → Option (List Char)
  | c :: rest => if c = ch then some rest else none
  | [] => none

/-- Regex class `\s` (ASCII whitespace). -/
def isWs (c : Char) : Bool :=
  c = ' ' || c = '\t' || c = '\n' || c = '\r' || c.toNat = 11 || c.toNat = 12

/-- Drop a maximal run of whitespace. -/
def dropWs : List Char → List Char
  | c :: rest => if isWs c then dropWs rest else c :: rest
  | [] => []

/-- Regex `\s+`, which CPython substitutes for literal whitespace in the
format: at least one whitespace character, consumed greedily. -/
def wsPlus : List Char → Option (List Char)
  | c :: rest => if isWs c then some (dropWs rest) else none
  | [] => none

/-- The `%Y-%m-%d` part of either format. -/
def parseYmd (cs : List Char) : Option ((Nat × Nat × Nat) × List Char) := do
  let (y, r1) ← parseY cs
  let r2 ← lit '-' r1
  let (m, r3) ← parseMonth r2
  let r4 ← lit '-' r3
  let (d, r5) ← parseDay r4
  pure ((y, m, d), r5)

/-- Calendar validation performed by the `datetime` constructor (`MINYEAR`
is 1; the month is already constrained to 1-12 by the regex). -/
def validYmd (y m d : Nat) : Prop :=
  1 ≤ y ∧ 1 ≤ d ∧ d ≤ daysInMonth y m

instance (y m d : Nat) : Decidable (validYmd y m d) := by
  unfold validYmd; infer_instance

/-- Python `datetime.strptime(s, "%Y-%m-%d")`, returning the parsed day, or
`none` when a `ValueError` is raised. -/
def parseDateOnly (s : String) : Option CalDate :=
  match parseYmd s.data with
  | some ((y, m, d), []) => if validYmd y m d then some ⟨y, m, d⟩ else none
  | _ => none

/-- Python `datetime.strptime(s, "%Y-%m-%d %H:%M")`, returning the parsed
instant, or `none` when a `ValueError` is raised. -/
def parseDateTime (s : String) : Option DT :=
  match parseYmd s.data with
  | some ((y, m, d), r5) =>
      match wsPlus r5 with
      | some r6 =>
          match parseHour r6 with
          | some (h, r7) =>
              match lit ':' r7 with
              | some r8 =>
                  match parseMin r8 with
                  | some (mi, []) =>
                      if validYmd y m d then some ⟨y, m, d, h, mi⟩ else none
                  | _ => none
              | none => none
          | none => none
      | none => none
  | none => none

/-! ### The slot calendar (`jam_session_tools.py`) -/

/-- One day's slot table: time string to occupant label. -/
abbrev DayMap := List (String × String)

/-- The module-global `JAM_SPOT_SCHEDULE` value: date string to day table. -/
abbrev Sched := List (String × DayMap)

/-- Python `[f"{h:02}:00" for h in range(8, 21)]`. -/
def possible_times : List String :=
  (List.range 13).map (fun h => pad2 (8 + h) ++ ":00")

/-- One freshly generated day: every grid hour mapped to `"unknown"`. -/
def initialDay : DayMap :=
  possible_times.map (fun t => (t, "unknown"))

/-- Python `generate_friends_schedule`, made explicit in the value of
`date.today()` and in the prior contents of the global schedule: for each of
the next seven days it assigns a fresh all-`"unknown"` day table.  Note that
the function does not clear `JAM_SPOT_SCHEDULE` first. -/
def generate_friends_schedule (today : CalDate) (prior : Sched) : Sched :=
  ((List.range 7).map (fun i => dateStr (addDays today i))).foldl
    (fun s ds => setA s ds initialDay) prior

/-- Result of `list_jam_spot_availabilities`, one constructor per `return`
site: invalid format; "the jam spot is not open" with an empty schedule; or
the available/booked partition. -/
inductive AvailResult where
  | invalidDate
  | notOpenA (date : String)
  | ok (date : String) (available_slots : List String)
      (booked_slots : List (String × String))
deriving DecidableEq

/-- Python `list_jam_spot_availabilities`.  The `if not daily_schedule`
test is falsy both for a missing date and for an (unreachable) empty day
table, which the `getD []` faithfully reproduces. -/
def list_jam_spot_availabilities (sched : Sched) (date : String) : AvailResult :=
  match parseDateOnly date with
  | none => .invalidDate
  | some _ =>
      let daily_schedule := (lookupA sched date).getD []
      if daily_schedule = [] then .notOpenA date
      else
        .ok date
          ((daily_schedule.filter (fun p => p.2 == "unknown")).map Prod.fst)
          (daily_schedule.filter (fun p => p.2 != "unknown"))

/-- Result of `book_jam_session`, one constructor per `return` site, each
carrying the values interpolated into that site's message string. -/
inductive BookResult where
  | invalidFormat
  | startNotBeforeEnd
  | notOpen (date : String)
  | noReservationName
  | alreadyBooked (slot : String) (date : String) (party : Option String)
  | booked (reservation_name : String) (start_time : String)
      (end_time : String) (date : String)
deriving DecidableEq

/-- Message rendering of the Python return dictionaries (Python prints the
`None` returned by `dict.get` on a missing slot as the string `"None"`). -/
def bookMessage : BookResult → String
  | .invalidFormat => "Invalid date or time format. Please use YYYY-MM-DD and HH:MM."
  | .startNotBeforeEnd => "Start time must be before end time."
  | .notOpen date => "The jam spot is not open on " ++ date ++ "."
  | .noReservationName => "Cannot book a jam spot without a reservation name."
  | .alreadyBooked slot date party =>
      "The time slot " ++ slot ++ " on " ++ date ++ " is already booked by " ++
        (match party with | some p => p | none => "None") ++ "."
  | .booked name st et date =>
      "Success! The jam session has been booked for " ++ name ++ " from " ++
        st ++ " to " ++ et ++ " on " ++ date ++ "."

/-- The slot-expansion `while` loop of `book_jam_session`, with explicit
fuel.  For instants parsed from one booking request the start and the end
lie on the same calendar day, so the loop body runs at most 24 times and
the fuel of 1440 used by `requiredSlots` is never exhausted. -/
def slotsLoop : Nat → DT → DT → List String
  | 0, _, _ => []
  | fuel + 1, current_time, end_dt =>
      if dtKey current_time < dtKey end_dt then
        fmtHM current_time :: slotsLoop fuel (addHour current_time) end_dt
      else []

/-- Python lines 100-104: expand `[start, end)` into hourly slot keys. -/
def requiredSlots (start_dt end_dt : DT) : List String :=
  slotsLoop 1440 start_dt end_dt

/-- The conflict scan of `book_jam_session` (lines 107-113): the first slot
whose `daily_schedule.get(slot, "booked")` is not `"unknown"`, paired with
`daily_schedule.get(slot)` (which is `None` for a slot key that is absent
from the grid). -/
def scanConflicts (daily_schedule : DayMap) : List String → Option (String × Option String)
  | [] => none
  | slot :: rest =>
      if ((lookupA daily_schedule slot).getD "booked") ≠ "unknown" then
        some (slot, lookupA daily_schedule slot)
      else scanConflicts daily_schedule rest

/-- Python `book_jam_session`: the returned dictionary together with the
schedule state after the call. -/
def book_jam_session (sched : Sched) (date start_time end_time reservation_name : String) :
    BookResult × Sched :=
  match parseDateTime (date ++ " " ++ start_time),
        parseDateTime (date ++ " " ++ end_time) with
  | some start_dt, some end_dt =>
      if dtKey end_dt ≤ dtKey start_dt then (.startNotBeforeEnd, sched)
      else if lookupA sched date = none then (.notOpen date, sched)
      else if reservation_name = "" then (.noReservationName, sched)
      else
        let required_slots := requiredSlots start_dt end_dt
        let daily_schedule := (lookupA sched date).getD []
        match scanConflicts daily_schedule required_slots with
        | some (slot, party) => (.alreadyBooked slot date party, sched)
        | none =>
            (.booked reservation_name start_time end_time date,
              setA sched date
                (required_slots.foldl
                  (fun dm slot => setA dm slot reservation_name) daily_schedule))
  | _, _ => (.invalidFormat, sched)

/-! ### The remote agent directory (`host_agent.py`) -/

/-- The name/description payload of an `AgentCard` fetched from a friend. -/
structure AgentCard where
  name : String
  description : String
deriving DecidableEq

/-- Python `HostAgent._register_remote_agent`, with the card fetch modelled
as a function from the address to `Option AgentCard`: both `except` clauses
log and return without touching the maps, which `none` reproduces; on
success the card is stored under `card.name`. -/
def register_remote_agent (fetch : String → Option AgentCard)
    (cards : List (String × AgentCard)) (address : String) :
    List (String × AgentCard) :=
  match fetch address with
  | none => cards
  | some card => setA cards card.name card

/-- Python `HostAgent._async_init_components`: register the addresses in
order, starting from the empty card map of a fresh instance. -/
def async_init_components (fetch : String → Option AgentCard)
    (addresses : List String) : List (String × AgentCard) :=
  addresses.foldl (register_remote_agent fetch) []

/-- JSON string escaping as performed by `json.dumps` on the quote,
backslash and common control characters (the only ones the model needs). -/
def escapeJsonChar (c : Char) : String :=
  if c = '\"' then "\\\""
  else if c = '\\' then "\\\\"
  else if c = '\n' then "\\n"
  else if c = '\t' then "\\t"
  else if c = '\r' then "\\r"
  else String.singleton c

/-- Escape a whole string. -/
def escapeJson (s : String) : String :=
  String.join (s.data.map escapeJsonChar)

/-- Python `json.dumps({"name": card.name, "description": card.description})`. -/
def agentLine (card : AgentCard) : String :=
  "\x7b\"name\": \"" ++ escapeJson card.name ++ "\", \"description\": \"" ++
    escapeJson card.description ++ "\"\x7d"

/-- Python `HostAgent._refresh_agent_directory`: one JSON line per card,
or the `"No friends found"` marker for an empty directory. -/
def refresh_agent_directory (cards : List (String × AgentCard)) : String :=
  let agent_info := cards.map (fun p => agentLine p.2)
  if agent_info = [] then "No friends found"
  else String.intercalate "\n" agent_info

/-! ### Specification-side helper notions -/

/-- The chronologically first required slot that actually holds a party
other than the free sentinel (missing slot keys are skipped); this is what
the specification means by "the first conflicting slot and its occupant". -/
def firstConflicting (day : DayMap) : List String → Option (String × String)
  | [] => none
  | slot :: rest =>
      match lookupA day slot with
      | some party =>
          if party ≠ "unknown" then some (slot, party)
          else firstConflicting day rest
      | none => firstConflicting day rest

/-- The hourly grid keys covered by an on-the-hour range `[h1:00, h2:00)`. -/
def hourlySlots (h1 h2 : Nat) : List String :=
  (List.range (h2 - h1)).map (fun i => pad2 (h1 + i) ++ ":00")

/-- Invariant of the slot calendar: every date present maps exactly the
thirteen grid keys `08:00` .. `20:00`, in grid order. -/
def calInvariant (sched : Sched) : Prop :=
  ∀ p ∈ sched, p.2.map Prod.fst = possible_times

/-! ### Association-list lemmas -/

theorem lookupA_setA {α : Type} (m : List (String × α)) (k : String) (v : α)
    (key : String) :
    lookupA (setA m k v) key = if key = k then some v else lookupA m key := by
  induction m with
  | nil =>
      by_cases h : key = k <;> simp [setA, lookupA, h]
  | cons p rest ih =>
      obtain ⟨pk, pv⟩ := p
      simp only [setA]
      by_cases hk : k = pk
      · subst hk
        by_cases h : key = k <;> simp [lookupA, h]
      · rw [if_neg hk]
        by_cases h : key = pk
        · subst h
          rw [if_neg (fun hkk => hk hkk.symm)]
          simp [lookupA]
        · simp [lookupA, h, ih]

theorem setA_self {α : Type} (m : List (String × α)) (k : String) (v : α)
    (h : lookupA m k = some v) : setA m k v = m := by
  induction m with
  | nil => simp [lookupA] at h
  | cons p rest ih =>
      obtain ⟨pk, pv⟩ := p
      simp only [lookupA] at h
      simp only [setA]
      by_cases hk : k = pk
      · rw [if_pos hk] at h
        injection h with h
        simp [hk, h]
      · rw [if_neg hk] at h
        simp [hk, ih h]

theorem mem_setA {α : Type} (m : List (String × α)) (k : String) (v : α)
    (p : String × α) (h : p ∈ setA m k v) : p ∈ m ∨ p = (k, v) := by
  induction m with
  | nil =>
      simp only [setA, List.mem_singleton] at h
      exact Or.inr h
  | cons q rest ih =>
      obtain ⟨qk, qv⟩ := q
      simp only [setA] at h
      by_cases hk : k = qk
      · rw [if_pos hk] at h
        rcases List.mem_cons.mp h with h | h
        · exact Or.inr (by rw [h, hk])
        · exact Or.inl (List.mem_cons_of_mem _ h)
      · rw [if_neg hk] at h
        rcases List.mem_cons.mp h with h | h
        · exact Or.inl (by rw [h]; exact List.mem_cons_self _ _)
        · rcases ih h with h1 | h1
          · exact Or.inl (List.mem_cons_of_mem _ h1)
          · exact Or.inr h1

theorem lookupA_eq_none_iff {α : Type} (m : List (String × α)) (k : String) :
    lookupA m k = none ↔ k ∉ m.map Prod.fst := by
  induction m with
  | nil => simp [lookupA]
  | cons p rest ih =>
      obtain ⟨pk, pv⟩ := p
      by_cases hk : k = pk <;> simp [lookupA, hk, ih]

theorem lookupA_some_mem {α : Type} (m : List (String × α)) (k : String) (v : α)
    (h : lookupA m k = some v) : (k, v) ∈ m := by
  induction m with
  | nil => simp [lookupA] at h
  | cons p rest ih =>
      obtain ⟨pk, pv⟩ := p
      simp only [lookupA] at h
      by_cases hk : k = pk
      · rw [if_pos hk] at h
        injection h with h
        rw [hk, h]
        exact List.mem_cons_self _ _
      · rw [if_neg hk] at h
        exact List.mem_cons_of_mem _ (ih h)

theorem keys_setA {α : Type} (m : List (String × α)) (k : String) (v : α)
    (h : k ∈ m.map Prod.fst) : (setA m k v).map Prod.fst = m.map Prod.fst := by
  induction m with
  | nil => simp at h
  | cons p rest ih =>
      obtain ⟨pk, pv⟩ := p
      simp only [setA]
      by_cases hk : k = pk
      · simp [hk]
      · simp only [List.map_cons, List.mem_cons] at h
        rcases h with h | h
        · exact absurd h hk
        · simp [if_neg hk, ih h]

theorem foldl_setA_const_lookup {α : Type} (v : α) :
    ∀ (ks : List String) (m : List (String × α)) (key : String),
      lookupA (ks.foldl (fun s kk => setA s kk v) m) key =
        if key ∈ ks then some v else lookupA m key := by
  intro ks
  induction ks with
  | nil => intro m key; simp
  | cons a ks ih =>
      intro m key
      simp only [List.foldl_cons, ih, lookupA_setA, List.mem_cons]
      by_cases h1 : key ∈ ks
      · simp [h1]
      · by_cases h2 : key = a <;> simp [h1, h2]

theorem foldl_setA_keys {α : Type} (v : α) :
    ∀ (ks : List String) (m : List (String × α)),
      (∀ k ∈ ks, k ∈ m.map Prod.fst) →
      (ks.foldl (fun s kk => setA s kk v) m).map Prod.fst = m.map Prod.fst := by
  intro ks
  induction ks with
  | nil => intro m _; simp
  | cons a ks ih =>
      intro m h
      have ha : a ∈ m.map Prod.fst := h a (List.mem_cons_self _ _)
      have hkeys := keys_setA m a v ha
      simp only [List.foldl_cons]
      rw [ih (setA m a v) (fun k hk => by rw [hkeys]; exact h k (List.mem_cons_of_mem _ hk)),
        hkeys]

/-! ### Conflict-scan lemmas -/

theorem lookup_unknown_of_getD (day : DayMap) (slot : String)
    (h : (lookupA day slot).getD "booked" = "unknown") :
    lookupA day slot = some "unknown" := by
  cases hl : lookupA day slot with
  | none => rw [hl] at h; simp at h
  | some v => rw [hl] at h; simp at h; rw [h]

theorem scanConflicts_eq_none_iff (day : DayMap) (L : List String) :
    scanConflicts day L = none ↔
      ∀ slot ∈ L, (lookupA day slot).getD "booked" = "unknown" := by
  induction L with
  | nil => simp [scanConflicts]
  | cons s rest ih =>
      simp only [scanConflicts]
      by_cases h : (lookupA day s).getD "booked" ≠ "unknown"
      · simp [h]
      · push_neg at h
        simp [h, ih]

theorem scanConflicts_all_present (day : DayMap) (L : List String)
    (h : ∀ slot ∈ L, (lookupA day slot).isSome) :
    scanConflicts day L =
      (firstConflicting day L).map (fun q => (q.1, some q.2)) := by
  induction L with
  | nil => simp [scanConflicts, firstConflicting]
  | cons s rest ih =>
      have hs : (lookupA day s).isSome := h s (List.mem_cons_self _ _)
      obtain ⟨p, hp⟩ := Option.isSome_iff_exists.mp hs
      simp only [scanConflicts, firstConflicting, hp]
      by_cases hu : p = "unknown"
      · subst hu
        rw [if_neg (by simp), if_neg (by simp)]
        exact ih (fun slot hslot => h slot (List.mem_cons_of_mem _ hslot))
      · rw [if_pos (by simp [hu]), if_pos (by simp [hu])]
        rfl

/-! ### Slot-expansion lemmas -/

theorem dtKey_lt_same_day (cur stop : DT)
    (hy : cur.year = stop.year) (hm : cur.month = stop.month)
    (hd : cur.day = stop.day) :
    (dtKey cur < dtKey stop ↔
      cur.hour * 60 + cur.minute < stop.hour * 60 + stop.minute) := by
  unfold dtKey
  rw [← hy, ← hm, ← hd]
  generalize ((cur.year * 13 + cur.month) * 32 + cur.day) = C
  omega

theorem addHour_minute (t : DT) : (addHour t).minute = t.minute := by
  unfold addHour
  split <;> rfl

theorem addHour_hour_le (t : DT) (h : t.hour ≤ 23) : (addHour t).hour ≤ 23 := by
  unfold addHour
  split
  · simpa using by omega
  · simp

theorem addHour_of_lt (t : DT) (h : t.hour < 23) :
    addHour t = ⟨t.year, t.month, t.day, t.hour + 1, t.minute⟩ := by
  unfold addHour
  rw [if_pos (by omega)]

theorem fmtHM_zero (t : DT) (h : t.minute = 0) :
    fmtHM t = pad2 t.hour ++ ":00" := by
  unfold fmtHM
  rw [h, String.append_assoc]
  rfl

theorem hourlySlots_cons (h1 h2 : Nat) (h : h1 < h2) :
    hourlySlots h1 h2 = (pad2 h1 ++ ":00") :: hourlySlots (h1 + 1) h2 := by
  unfold hourlySlots
  have hsub : h2 - h1 = (h2 - (h1 + 1)) + 1 := by omega
  rw [hsub, List.range_succ_eq_map]
  simp only [List.map_cons, Nat.add_zero, List.map_map]
  congr 1
  apply List.map_congr_left
  intro i _
  simp only [Function.comp_apply]
  congr 2
  omega

theorem hourlySlots_nil (h1 h2 : Nat) (h : h2 ≤ h1) : hourlySlots h1 h2 = [] := by
  unfold hourlySlots
  rw [Nat.sub_eq_zero_of_le h]
  rfl

theorem slotsLoop_closed_form :
    ∀ (fuel : Nat) (cur stop : DT),
      cur.year = stop.year → cur.month = stop.month → cur.day = stop.day →
      cur.minute = 0 → stop.minute = 0 → stop.hour ≤ 23 →
      stop.hour - cur.hour ≤ fuel →
      slotsLoop fuel cur stop = hourlySlots cur.hour stop.hour := by
  intro fuel
  induction fuel with
  | zero =>
      intro cur stop hy hm hd hcm hsm hsh hfuel
      rw [hourlySlots_nil _ _ (by omega)]
      rfl
  | succ fuel ih =>
      intro cur stop hy hm hd hcm hsm hsh hfuel
      simp only [slotsLoop]
      by_cases h : dtKey cur < dtKey stop
      · have hlt : cur.hour < stop.hour := by
          have := (dtKey_lt_same_day cur stop hy hm hd).mp h
          omega
        rw [if_pos h, fmtHM_zero cur hcm, hourlySlots_cons _ _ hlt]
        have hstep := addHour_of_lt cur (by omega)
        rw [hstep, ih ⟨cur.year, cur.month, cur.day, cur.hour + 1, cur.minute⟩ stop
          hy hm hd hcm hsm hsh (by simp; omega)]
      · have hge : stop.hour ≤ cur.hour := by
          by_contra hcon
          exact h ((dtKey_lt_same_day cur stop hy hm hd).mpr (by omega))
        rw [if_neg h, hourlySlots_nil _ _ hge]

theorem slotsLoop_shape :
    ∀ (fuel : Nat) (cur stop : DT), cur.hour ≤ 23 →
      ∀ s ∈ slotsLoop fuel cur stop,
        ∃ hh, hh ≤ 23 ∧ s = pad2 hh ++ ":" ++ pad2 cur.minute := by
  intro fuel
  induction fuel with
  | zero => intro cur stop _ s hs; simp [slotsLoop] at hs
  | succ fuel ih =>
      intro cur stop hcur s hs
      simp only [slotsLoop] at hs
      by_cases h : dtKey cur < dtKey stop
      · rw [if_pos h] at hs
        rcases List.mem_cons.mp hs with hs | hs
        · exact ⟨cur.hour, hcur, by rw [hs]; rfl⟩
        · obtain ⟨hh, hhle, hse⟩ :=
            ih (addHour cur) stop (addHour_hour_le cur hcur) s hs
          exact ⟨hh, hhle, by rw [hse, addHour_minute]⟩
      · rw [if_neg h] at hs
        simp at hs

theorem slotsLoop_head (fuel : Nat) (cur stop : DT)
    (h : dtKey cur < dtKey stop) (hf : 0 < fuel) :
    ∃ rest, slotsLoop fuel cur stop = fmtHM cur :: rest := by
  obtain ⟨fuel', rfl⟩ := Nat.exists_eq_succ_of_ne_zero (by omega : fuel ≠ 0)
  refine ⟨slotsLoop fuel' (addHour cur) stop, ?_⟩
  simp only [slotsLoop, if_pos h]

/-! ### Parser-bound lemmas -/

theorem isDig_bounds (c : Char) (h : isDig c = true) : dval c ≤ 9 := by
  unfold isDig at h
  unfold dval
  simp only [Bool.and_eq_true, decide_eq_true_eq] at h
  omega

theorem parseHour_le (cs : List Char) (h : Nat) (rest : List Char)
    (hp : parseHour cs = some (h, rest)) : h ≤ 23 := by
  match cs with
  | [] => simp [parseHour] at hp
  | [c1] =>
      simp only [parseHour] at hp
      split_ifs at hp with h1
      · simp only [Option.some.injEq, Prod.mk.injEq] at hp
        have := isDig_bounds c1 h1
        omega
  | c1 :: c2 :: tl =>
      simp only [parseHour] at hp
      split_ifs at hp with h1 h2 h3
      · obtain ⟨-, hd2, hle⟩ := h1
        simp only [Option.some.injEq, Prod.mk.injEq] at hp
        omega
      · obtain ⟨hd1, hle, hd2⟩ := h2
        have b1 := isDig_bounds c1 hd1
        have b2 := isDig_bounds c2 hd2
        simp only [Option.some.injEq, Prod.mk.injEq] at hp
        omega
      · have b1 := isDig_bounds c1 h3
        simp only [Option.some.injEq, Prod.mk.injEq] at hp
        omega

theorem parseMin_le (cs : List Char) (h : Nat) (rest : List Char)
    (hp : parseMin cs = some (h, rest)) : h ≤ 59 := by
  match cs with
  | [] => simp [parseMin] at hp
  | [c1] =>
      simp only [parseMin] at hp
      split_ifs at hp with h1
      · simp only [Option.some.injEq, Prod.mk.injEq] at hp
        have := isDig_bounds c1 h1
        omega
  | c1 :: c2 :: tl =>
      simp only [parseMin] at hp
      split_ifs at hp with h1 h2
      · obtain ⟨hd1, hle, hd2⟩ := h1
        have b2 := isDig_bounds c2 hd2
        simp only [Option.some.injEq, Prod.mk.injEq] at hp
        omega
      · have b1 := isDig_bounds c1 h2
        simp only [Option.some.injEq, Prod.mk.injEq] at hp
        omega

theorem parseDateTime_bounds (s : String) (t : DT)
    (h : parseDateTime s = some t) : t.hour ≤ 23 ∧ t.minute ≤ 59 := by
  unfold parseDateTime at h
  split at h
  case h_2 => exact absurd h (by simp)
  case h_1 y m d r5 heq =>
    split at h
    case h_2 => exact absurd h (by simp)
    case h_1 r6 hws =>
      split at h
      case h_2 => exact absurd h (by simp)
      case h_1 hh r7 hhour =>
        split at h
        case h_2 => exact absurd h (by simp)
        case h_1 r8 hlit =>
          split at h
          case h_2 => exact absurd h (by simp)
          case h_1 mi hmin =>
            split at h
            · injection h with h
              subst h
              exact ⟨parseHour_le _ _ _ hhour, parseMin_le _ _ _ hmin⟩
            · exact absurd h (by simp)

/-- A grid key carries minutes `00`; a slot key with non-zero minutes can
match none of the thirteen grid keys. -/
theorem misaligned_not_grid :
    ∀ hh, hh < 24 → ∀ mm, mm < 60 → mm ≠ 0 →
      (pad2 hh ++ ":" ++ pad2 mm) ∉ possible_times := by decide

/-! ### Booking path lemmas -/

theorem book_parse_fail (sched : Sched) (date st et name : String)
    (h : parseDateTime (date ++ " " ++ st) = none ∨
         parseDateTime (date ++ " " ++ et) = none) :
    book_jam_session sched date st et name = (.invalidFormat, sched) := by
  unfold book_jam_session
  rcases h with h | h
  · rw [h]
  · rw [h]
    cases hp : parseDateTime (date ++ " " ++ st) <;> rfl

theorem book_eq_of_parse (sched : Sched) (date st et name : String) (s e : DT)
    (hs : parseDateTime (date ++ " " ++ st) = some s)
    (he : parseDateTime (date ++ " " ++ et) = some e) :
    book_jam_session sched date st et name =
      (if dtKey e ≤ dtKey s then (.startNotBeforeEnd, sched)
       else if lookupA sched date = none then (.notOpen date, sched)
       else if name = "" then (.noReservationName, sched)
       else
         match scanConflicts ((lookupA sched date).getD [])
             (requiredSlots s e) with
         | some (slot, party) => (.alreadyBooked slot date party, sched)
         | none =>
             (.booked name st et date,
               setA sched date
                 ((requiredSlots s e).foldl
                   (fun dm slot => setA dm slot name)
                   ((lookupA sched date).getD [])))) := by
  unfold book_jam_session
  rw [hs, he]

theorem book_conflict_eq (sched : Sched) (date st et name : String)
    (s e : DT) (day : DayMap) (slot : String) (party : Option String)
    (hs : parseDateTime (date ++ " " ++ st) = some s)
    (he : parseDateTime (date ++ " " ++ et) = some e)
    (hlt : dtKey s < dtKey e)
    (hday : lookupA sched date = some day)
    (hname : name ≠ "")
    (hscan : scanConflicts day (requiredSlots s e) = some (slot, party)) :
    book_jam_session sched date st et name =
      (.alreadyBooked slot date party, sched) := by
  rw [book_eq_of_parse sched date st et name s e hs he,
    if_neg (by omega), if_neg (by simp [hday]), if_neg hname, hday]
  simp only [Option.getD_some, hscan]

theorem book_success_eq (sched : Sched) (date st et name : String)
    (s e : DT) (day : DayMap)
    (hs : parseDateTime (date ++ " " ++ st) = some s)
    (he : parseDateTime (date ++ " " ++ et) = some e)
    (hlt : dtKey s < dtKey e)
    (hday : lookupA sched date = some day)
    (hname : name ≠ "")
    (hscan : scanConflicts day (requiredSlots s e) = none) :
    book_jam_session sched date st et name =
      (.booked name st et date,
        setA sched date
          ((requiredSlots s e).foldl
            (fun dm slot => setA dm slot name) day)) := by
  rw [book_eq_of_parse sched date st et name s e hs he,
    if_neg (by omega), if_neg (by simp [hday]), if_neg hname, hday]
  simp only [Option.getD_some, hscan]

/-! ### Concrete schedules used by witnesses and counterexamples -/

/-- A calendar generated for the window starting 2024-08-01, from the empty
prior state the module-load call sees. -/
def sampleSched : Sched := generate_friends_schedule ⟨2024, 8, 1⟩ []

/-- The calendar after Bob books 09:00-10:00 on the first window day. -/
def schedBob9 : Sched :=
  (book_jam_session sampleSched "2024-08-01" "09:00" "10:00" "Bob").2

/-- The calendar after Bob books 10:00-11:00 on the first window day. -/
def schedBob10 : Sched :=
  (book_jam_session sampleSched "2024-08-01" "10:00" "11:00" "Bob").2

/-- The calendar after Bob books 10:00-12:00 on the first window day. -/
def schedBob1012 : Sched :=
  (book_jam_session sampleSched "2024-08-01" "10:00" "12:00" "Bob").2

/-! ### The claims -/

/-- Claim C5: `book_jam_session` checks its preconditions in the fixed
order parse, range, open, occupant, and reports the first failure only:
unparseable date or time gives the invalid-format error; then start not
strictly before end gives the invalid-range error; then a date absent from
the calendar gives the not-open error; then an empty occupant label gives
the missing-occupant error.  In each case no slot state changes.  In
particular a well-formed out-of-window date together with an empty occupant
label yields not-open, not missing-occupant (third conjunct, which places
no constraint on the label). -/
theorem claim_C5 (sched : Sched) (date st et name : String) :
    ((parseDateTime (date ++ " " ++ st) = none ∨
        parseDateTime (date ++ " " ++ et) = none) →
      book_jam_session sched date st et name = (.invalidFormat, sched)) ∧
    (∀ s e, parseDateTime (date ++ " " ++ st) = some s →
      parseDateTime (date ++ " " ++ et) = some e → dtKey e ≤ dtKey s →
      book_jam_session sched date st et name = (.startNotBeforeEnd, sched)) ∧
    (∀ s e, parseDateTime (date ++ " " ++ st) = some s →
      parseDateTime (date ++ " " ++ et) = some e → dtKey s < dtKey e →
      lookupA sched date = none →
      book_jam_session sched date st et name = (.notOpen date, sched)) ∧
    (∀ s e day, parseDateTime (date ++ " " ++ st) = some s →
      parseDateTime (date ++ " " ++ et) = some e → dtKey s < dtKey e →
      lookupA sched date = some day → name = "" →
      book_jam_session sched date st et name = (.noReservationName, sched)) := by
  refine ⟨book_parse_fail sched date st et name, ?_, ?_, ?_⟩
  · intro s e hs he hle
    rw [book_eq_of_parse sched date st et name s e hs he, if_pos hle]
  · intro s e hs he hlt hnone
    rw [book_eq_of_parse sched date st et name s e hs he, if_neg (by omega),
      if_pos hnone]
  · intro s e day hs he hlt hday hname
    rw [book_eq_of_parse sched date st et name s e hs he, if_neg (by omega),
      if_neg (by simp [hday]), if_pos hname]

/-- Witness for C5: a malformed date gives the invalid-format error, and a
well-formed date outside the window combined with an empty occupant label
gives the not-open error, not the missing-occupant one. -/
theorem claim_C5_witness :
    book_jam_session sampleSched "2024-09-15" "10:00" "11:00" "" =
      (.notOpen "2024-09-15", sampleSched) ∧
    book_jam_session sampleSched "2024-13-40" "10:00" "11:00" "Bob" =
      (.invalidFormat, sampleSched) :=
  ⟨(claim_C5 sampleSched "2024-09-15" "10:00" "11:00" "").2.2.1
      ⟨2024, 9, 15, 10, 0⟩ ⟨2024, 9, 15, 11, 0⟩
      (by decide) (by decide) (by decide) (by decide),
    (claim_C5 sampleSched "2024-13-40" "10:00" "11:00" "Bob").1
      (Or.inl (by decide))⟩

/-- Claim C7: a parseable booking request whose start instant is not
strictly before its end instant always fails with the invalid-range error
and leaves the schedule unchanged, whatever the occupant label (including
the empty one) and whatever the date's relation to the calendar window. -/
theorem claim_C7 (sched : Sched) (date st et name : String) (s e : DT)
    (hs : parseDateTime (date ++ " " ++ st) = some s)
    (he : parseDateTime (date ++ " " ++ et) = some e)
    (hge : dtKey e ≤ dtKey s) :
    book_jam_session sched date st et name = (.startNotBeforeEnd, sched) := by
  rw [book_eq_of_parse sched date st et name s e hs he, if_pos hge]

/-- Witness for C7: start 12:00 after end 10:00, on a date outside the
window and with an empty occupant label, still gives invalid-range. -/
theorem claim_C7_witness :
    book_jam_session sampleSched "2024-09-15" "12:00" "10:00" "" =
      (.startNotBeforeEnd, sampleSched) :=
  claim_C7 sampleSched "2024-09-15" "12:00" "10:00" ""
    ⟨2024, 9, 15, 12, 0⟩ ⟨2024, 9, 15, 10, 0⟩ (by decide) (by decide) (by decide)

/-- Claim C1 (amended): for a booking request with parseable date/times,
start strictly before end, an in-window date and a non-empty occupant
label, and such that additionally every required slot key exists in that
date's slot table, if some required slot holds an occupant other than the
free sentinel then `book_jam_session` returns the already-booked error
naming the chronologically first such slot and its occupant, and the
schedule is unchanged (all-or-nothing).  The presence hypothesis is what
the counterexample forces: a required slot key absent from the grid is
itself reported as the conflict (with occupant `None`) even when a later
required slot holds a real occupant. -/
theorem claim_C1_amended (sched : Sched) (date st et name : String)
    (s e : DT) (day : DayMap) (slot0 party0 : String)
    (hs : parseDateTime (date ++ " " ++ st) = some s)
    (he : parseDateTime (date ++ " " ++ et) = some e)
    (hlt : dtKey s < dtKey e)
    (hday : lookupA sched date = some day)
    (hname : name ≠ "")
    (hall : ∀ slot ∈ requiredSlots s e, (lookupA day slot).isSome)
    (hfirst : firstConflicting day (requiredSlots s e) = some (slot0, party0)) :
    book_jam_session sched date st et name =
      (.alreadyBooked slot0 date (some party0), sched) := by
  have hscan := scanConflicts_all_present day (requiredSlots s e) hall
  rw [hfirst] at hscan
  simp only [Option.map_some'] at hscan
  exact book_conflict_eq sched date st et name s e day slot0 (some party0)
    hs he hlt hday hname hscan

/-- Counterexample to C1 as frozen.  After Bob books 09:00-10:00 on
2024-08-01, the request (2024-08-01, 07:00-10:00, "Alice") satisfies every
hypothesis of the claim: the date is in-window, everything parses, start
precedes end, the label is non-empty, and required slot 09:00 holds
occupant "Bob" (the chronologically first slot with a non-sentinel
occupant, as the second conjunct computes).  The claim therefore predicts
an error naming 09:00 and "Bob"; the code instead reports slot 07:00 with
occupant `None`, because the scan's `get(slot, "booked")` default turns
the merely-missing key 07:00 into the reported conflict. -/
theorem claim_C1_counterexample :
    (book_jam_session schedBob9 "2024-08-01" "07:00" "10:00" "Alice").1 =
        .alreadyBooked "07:00" "2024-08-01" none ∧
    firstConflicting ((lookupA schedBob9 "2024-08-01").getD [])
        (requiredSlots ⟨2024, 8, 1, 7, 0⟩ ⟨2024, 8, 1, 10, 0⟩) =
      some ("09:00", "Bob") ∧
    (book_jam_session schedBob9 "2024-08-01" "07:00" "10:00" "Alice").1 ≠
      .alreadyBooked "09:00" "2024-08-01" (some "Bob") := by
  decide

/-- Witness for C1 (amended): after Bob books 10:00-11:00, Alice's request
for 10:00-12:00 is rejected naming slot 10:00 and occupant Bob, with the
schedule unchanged. -/
theorem claim_C1_witness :
    book_jam_session schedBob10 "2024-08-01" "10:00" "12:00" "Alice" =
      (.alreadyBooked "10:00" "2024-08-01" (some "Bob"), schedBob10) :=
  claim_C1_amended schedBob10 "2024-08-01" "10:00" "12:00" "Alice"
    ⟨2024, 8, 1, 10, 0⟩ ⟨2024, 8, 1, 12, 0⟩
    ((lookupA schedBob10 "2024-08-01").getD []) "10:00" "Bob"
    (by decide) (by decide) (by decide) (by decide) (by decide)
    (by decide) (by decide)

/-- Claim C2: a parseable booking request on an in-window date, with start
strictly before end on whole-hour boundaries, a non-empty occupant label
and all required slots currently free, succeeds; afterwards the label is
assigned to exactly the hourly slots in `[start, end)` of that date
(second and third conjuncts), and every other slot of that date and every
other date is unchanged (third and fourth conjuncts). -/
theorem claim_C2 (sched : Sched) (date st et name : String)
    (s e : DT) (day : DayMap)
    (hs : parseDateTime (date ++ " " ++ st) = some s)
    (he : parseDateTime (date ++ " " ++ et) = some e)
    (hy : s.year = e.year) (hm : s.month = e.month) (hd : s.day = e.day)
    (hsm : s.minute = 0) (hem : e.minute = 0)
    (hlt : dtKey s < dtKey e)
    (hday : lookupA sched date = some day)
    (hname : name ≠ "")
    (hfree : ∀ slot ∈ requiredSlots s e, lookupA day slot = some "unknown") :
    (book_jam_session sched date st et name).1 = .booked name st et date ∧
    requiredSlots s e = hourlySlots s.hour e.hour ∧
    (∀ t, lookupA
        ((lookupA (book_jam_session sched date st et name).2 date).getD []) t =
      if t ∈ hourlySlots s.hour e.hour then some name else lookupA day t) ∧
    (∀ d2, d2 ≠ date →
      lookupA (book_jam_session sched date st et name).2 d2 =
        lookupA sched d2) := by
  have hscan : scanConflicts day (requiredSlots s e) = none :=
    (scanConflicts_eq_none_iff day _).mpr
      (fun slot hslot => by rw [hfree slot hslot]; rfl)
  have hbook := book_success_eq sched date st et name s e day hs he hlt hday
    hname hscan
  have hbounds := parseDateTime_bounds _ _ he
  have hclosed : requiredSlots s e = hourlySlots s.hour e.hour :=
    slotsLoop_closed_form 1440 s e hy hm hd hsm hem hbounds.1 (by omega)
  have h2 : (book_jam_session sched date st et name).2 =
      setA sched date
        ((requiredSlots s e).foldl (fun dm slot => setA dm slot name) day) := by
    rw [hbook]
  refine ⟨by rw [hbook], hclosed, ?_, ?_⟩
  · intro t
    rw [h2, lookupA_setA, if_pos rfl]
    simp only [Option.getD_some]
    rw [hclosed]
    exact foldl_setA_const_lookup name (hourlySlots s.hour e.hour) day t
  · intro d2 hd2
    rw [h2, lookupA_setA, if_neg hd2]

/-- Witness for C2, the specification's concrete scenario 1: booking
(2024-08-01, 10:00-12:00, "Bob") on the fresh window succeeds, slots 10:00
and 11:00 are assigned to Bob, slot 12:00 stays free, and the next day is
untouched. -/
theorem claim_C2_witness :
    (book_jam_session sampleSched "2024-08-01" "10:00" "12:00" "Bob").1 =
        .booked "Bob" "10:00" "12:00" "2024-08-01" ∧
    lookupA ((lookupA (book_jam_session sampleSched "2024-08-01" "10:00"
        "12:00" "Bob").2 "2024-08-01").getD []) "10:00" = some "Bob" ∧
    lookupA ((lookupA (book_jam_session sampleSched "2024-08-01" "10:00"
        "12:00" "Bob").2 "2024-08-01").getD []) "11:00" = some "Bob" ∧
    lookupA ((lookupA (book_jam_session sampleSched "2024-08-01" "10:00"
        "12:00" "Bob").2 "2024-08-01").getD []) "12:00" = some "unknown" ∧
    lookupA (book_jam_session sampleSched "2024-08-01" "10:00" "12:00"
        "Bob").2 "2024-08-02" = lookupA sampleSched "2024-08-02" := by
  have h := claim_C2 sampleSched "2024-08-01" "10:00" "12:00" "Bob"
    ⟨2024, 8, 1, 10, 0⟩ ⟨2024, 8, 1, 12, 0⟩
    ((lookupA sampleSched "2024-08-01").getD [])
    (by decide) (by decide) (by decide) (by decide) (by decide)
    (by decide) (by decide) (by decide) (by decide) (by decide) (by decide)
  exact ⟨h.1, (h.2.2.1 "10:00").trans (by decide),
    (h.2.2.1 "11:00").trans (by decide),
    (h.2.2.1 "12:00").trans (by decide),
    h.2.2.2 "2024-08-02" (by decide)⟩

/-- Claim C3: every operation preserves the calendar invariant that each
date present maps exactly the thirteen hourly slot keys 08:00 through
20:00, and no operation creates a slot key outside this set: schedule
generation establishes it on the dates it writes and preserves it on the
rest (first conjunct), and booking preserves it whether it succeeds or
fails (second conjunct).  The availability query never writes the
schedule at all - its embedding `list_jam_spot_availabilities` is a pure
read returning only an `AvailResult`. -/
theorem claim_C3 :
    (∀ today prior, calInvariant prior →
      calInvariant (generate_friends_schedule today prior)) ∧
    (∀ sched date st et name, calInvariant sched →
      calInvariant (book_jam_session sched date st et name).2) := by
  constructor
  · intro today prior hprior
    unfold generate_friends_schedule
    have hgen : ∀ (ks : List String) (m : Sched), calInvariant m →
        calInvariant (ks.foldl (fun s ds => setA s ds initialDay) m) := by
      intro ks
      induction ks with
      | nil => intro m hm; exact hm
      | cons a ks ih =>
          intro m hm
          apply ih
          intro p hp
          rcases mem_setA m a initialDay p hp with h | h
          · exact hm p h
          · rw [h]
            show initialDay.map Prod.fst = possible_times
            decide
    exact hgen _ prior hprior
  · intro sched date st et name hsched
    cases hs : parseDateTime (date ++ " " ++ st) with
    | none =>
        rw [book_parse_fail sched date st et name (Or.inl hs)]
        exact hsched
    | some s =>
        cases he : parseDateTime (date ++ " " ++ et) with
        | none =>
            rw [book_parse_fail sched date st et name (Or.inr he)]
            exact hsched
        | some e =>
            rw [book_eq_of_parse sched date st et name s e hs he]
            by_cases h1 : dtKey e ≤ dtKey s
            · rw [if_pos h1]; exact hsched
            · rw [if_neg h1]
              by_cases h2 : lookupA sched date = none
              · rw [if_pos h2]; exact hsched
              · rw [if_neg h2]
                by_cases h3 : name = ""
                · rw [if_pos h3]; exact hsched
                · rw [if_neg h3]
                  obtain ⟨day, hday⟩ := Option.ne_none_iff_exists'.mp h2
                  rw [hday]
                  simp only [Option.getD_some]
                  cases hscan : scanConflicts day (requiredSlots s e) with
                  | some q =>
                      obtain ⟨slot, party⟩ := q
                      exact hsched
                  | none =>
                      intro p hp
                      rcases mem_setA sched date _ p hp with h | h
                      · exact hsched p h
                      · have hdaykeys : day.map Prod.fst = possible_times :=
                          hsched (date, day) (lookupA_some_mem sched date day hday)
                        have hall : ∀ k ∈ requiredSlots s e, k ∈ day.map Prod.fst := by
                          intro k hk
                          have hu := (scanConflicts_eq_none_iff day _).mp hscan k hk
                          have hsome := lookup_unknown_of_getD day k hu
                          by_contra hk2
                          rw [(lookupA_eq_none_iff day k).mpr hk2] at hsome
                          exact absurd hsome (by simp)
                        rw [h]
                        calc ((requiredSlots s e).foldl
                              (fun dm slot => setA dm slot name) day).map Prod.fst
                            = day.map Prod.fst :=
                              foldl_setA_keys name (requiredSlots s e) day hall
                          _ = possible_times := hdaykeys

/-- Witness for C3: the freshly generated window satisfies the invariant,
and it is preserved across a successful booking. -/
theorem claim_C3_witness :
    calInvariant (generate_friends_schedule ⟨2024, 8, 1⟩ []) ∧
    calInvariant (book_jam_session sampleSched "2024-08-01" "10:00" "12:00"
      "Bob").2 := by
  have hgen := claim_C3.1 ⟨2024, 8, 1⟩ [] (by intro p hp; simp at hp)
  exact ⟨hgen, claim_C3.2 sampleSched "2024-08-01" "10:00" "12:00" "Bob" hgen⟩

/-- Claim C6 (amended): for a parseable in-window booking request with a
non-empty label, start strictly before end, and a start time whose minutes
are not 00, every expanded slot key has those same non-zero minutes and so
matches no key of the slot grid; the conflict scan then does not silently
pass these keys but treats each missing key as occupied (the `"booked"`
lookup default), so the booking is rejected with the already-booked error
naming the first required slot with occupant `None`, and nothing changes.
When only the end time is misaligned the expanded keys are ordinary grid
keys (see the counterexample), so no conclusion about non-matching holds.
The operation indeed never explicitly checks alignment - the rejection is
a by-product of the lookup default. -/
theorem claim_C6_amended (sched : Sched) (date st et name : String)
    (s e : DT) (day : DayMap)
    (hs : parseDateTime (date ++ " " ++ st) = some s)
    (he : parseDateTime (date ++ " " ++ et) = some e)
    (hmis : s.minute ≠ 0)
    (hlt : dtKey s < dtKey e)
    (hday : lookupA sched date = some day)
    (hkeys : day.map Prod.fst = possible_times)
    (hname : name ≠ "") :
    (∀ slot ∈ requiredSlots s e, slot ∉ possible_times) ∧
    book_jam_session sched date st et name =
      (.alreadyBooked (fmtHM s) date none, sched) := by
  obtain ⟨hH, hM⟩ := parseDateTime_bounds _ _ hs
  have hnotgrid : ∀ slot ∈ requiredSlots s e, slot ∉ possible_times := by
    intro slot hslot
    obtain ⟨hh, hhle, hshape⟩ := slotsLoop_shape 1440 s e hH slot hslot
    rw [hshape]
    exact misaligned_not_grid hh (by omega) s.minute (by omega) hmis
  refine ⟨hnotgrid, ?_⟩
  obtain ⟨rest, hhead⟩ := slotsLoop_head 1440 s e hlt (by omega)
  have hmem : fmtHM s ∈ requiredSlots s e := by
    unfold requiredSlots
    rw [hhead]
    exact List.mem_cons_self _ _
  have hnone : lookupA day (fmtHM s) = none := by
    rw [lookupA_eq_none_iff, hkeys]
    exact hnotgrid (fmtHM s) hmem
  have hscan : scanConflicts day (requiredSlots s e) = some (fmtHM s, none) := by
    unfold requiredSlots
    rw [hhead]
    simp only [scanConflicts]
    rw [hnone]
    rw [if_pos (by simp)]
  exact book_conflict_eq sched date st et name s e day (fmtHM s) none
    hs he hlt hday hname hscan

/-- Counterexample to C6 as frozen, in both directions.  First, a request
whose start is misaligned (10:30-12:30 on the fresh window) does not have
its conflicts "silently" undetected: the code rejects it outright with the
already-booked error on the missing key 10:30 (occupant `None`), changing
nothing.  Second, for a request where only the end time is misaligned
(10:00-12:30), the expanded keys are 10:00, 11:00, 12:00 - ordinary grid
keys, all of which match the slot grid, contradicting the claim that the
expanded keys of any request with misaligned end "never match any key". -/
theorem claim_C6_counterexample :
    (book_jam_session sampleSched "2024-08-01" "10:30" "12:30" "Alice").1 =
        .alreadyBooked "10:30" "2024-08-01" none ∧
    (book_jam_session sampleSched "2024-08-01" "10:30" "12:30" "Alice").2 =
        sampleSched ∧
    requiredSlots ⟨2024, 8, 1, 10, 0⟩ ⟨2024, 8, 1, 12, 30⟩ =
        ["10:00", "11:00", "12:00"] ∧
    "10:00" ∈ possible_times ∧ "11:00" ∈ possible_times ∧
    "12:00" ∈ possible_times := by
  decide

/-- Witness for C6 (amended): the misaligned request 10:30-12:30 on the
fresh window is rejected naming slot 10:30 with occupant `None`, and 10:30
matches no grid key. -/
theorem claim_C6_witness :
    book_jam_session sampleSched "2024-08-01" "10:30" "12:30" "Alice" =
      (.alreadyBooked "10:30" "2024-08-01" none, sampleSched) ∧
    "10:30" ∉ possible_times := by
  have h := claim_C6_amended sampleSched "2024-08-01" "10:30" "12:30" "Alice"
    ⟨2024, 8, 1, 10, 30⟩ ⟨2024, 8, 1, 12, 30⟩
    ((lookupA sampleSched "2024-08-01").getD [])
    (by decide) (by decide) (by decide) (by decide) (by decide) (by decide)
    (by decide)
  exact ⟨h.2.trans (by decide), h.1 "10:30" (by decide)⟩

/-- Claim C8 (amended): schedule generation writes, for each of the seven
days from today through today+6, a day table with one entry per grid hour,
each initialized to the free sentinel, overwriting any prior entry for
those dates; but it does not clear the global dictionary, so a prior entry
for any other date survives the call (fourth conjunct; the counterexample
exhibits a surviving stale date).  In the program the call happens once,
on the empty module-level dictionary, where the difference is invisible. -/
theorem claim_C8_amended (today : CalDate) (prior : Sched) :
    (∀ i, i < 7 →
      lookupA (generate_friends_schedule today prior)
        (dateStr (addDays today i)) = some initialDay) ∧
    initialDay.map Prod.fst = possible_times ∧
    (∀ p ∈ initialDay, p.2 = "unknown") ∧
    (∀ d, (∀ i, i < 7 → d ≠ dateStr (addDays today i)) →
      lookupA (generate_friends_schedule today prior) d = lookupA prior d) := by
  refine ⟨?_, by decide, by decide, ?_⟩
  · intro i hi
    unfold generate_friends_schedule
    rw [foldl_setA_const_lookup, if_pos]
    exact List.mem_map.mpr ⟨i, List.mem_range.mpr hi, rfl⟩
  · intro d hd
    unfold generate_friends_schedule
    rw [foldl_setA_const_lookup, if_neg]
    intro hmem
    obtain ⟨i, hi, hieq⟩ := List.mem_map.mp hmem
    exact hd i (List.mem_range.mp hi) hieq.symm

/-- A stale calendar entry predating a generation call. -/
def staleSched : Sched := [("1999-01-01", [("08:00", "Carol")])]

/-- Counterexample to C8 as frozen: `generate_friends_schedule` does not
replace prior calendar state - an entry for a date outside the new window
survives the call unchanged, so it is not true that "after generation no
entry from before the call remains". -/
theorem claim_C8_counterexample :
    lookupA (generate_friends_schedule ⟨2024, 8, 1⟩ staleSched) "1999-01-01" =
      some [("08:00", "Carol")] := by
  decide

/-- Witness for C8 (amended): generating over the stale calendar gives the
first window day the fresh all-unknown table while the stale date's entry
is exactly what it was before the call. -/
theorem claim_C8_witness :
    lookupA (generate_friends_schedule ⟨2024, 8, 1⟩ staleSched) "2024-08-01" =
      some initialDay ∧
    lookupA (generate_friends_schedule ⟨2024, 8, 1⟩ staleSched) "1999-01-01" =
      lookupA staleSched "1999-01-01" := by
  have h := claim_C8_amended ⟨2024, 8, 1⟩ staleSched
  refine ⟨?_, h.2.2.2 "1999-01-01" (by decide)⟩
  have h0 := h.1 0 (by decide)
  rw [show dateStr (addDays ⟨2024, 8, 1⟩ 0) = "2024-08-01" from by decide] at h0
  exact h0

/-- Claim C4: the availability query is a three-way function of its date
argument.  A malformed date string gives the invalid-format error (and, the
embedding being a total function, never a crash); a well-formed date absent
from the calendar gives the explicit not-open result, a constructor
distinct from any schedule payload; a well-formed in-window date gives the
partition of the day's table into the free-slot list (slots holding the
sentinel) and the booked-slot mapping (slot to non-sentinel occupant),
whose key sets together cover the day's grid keys exactly once (the
permutation conjunct). -/
theorem claim_C4 (sched : Sched) (date : String) :
    (parseDateOnly date = none →
      list_jam_spot_availabilities sched date = .invalidDate) ∧
    ((parseDateOnly date).isSome → lookupA sched date = none →
      list_jam_spot_availabilities sched date = .notOpenA date) ∧
    (∀ day, (parseDateOnly date).isSome → lookupA sched date = some day →
      day ≠ [] →
      list_jam_spot_availabilities sched date =
          .ok date ((day.filter (fun p => p.2 == "unknown")).map Prod.fst)
            (day.filter (fun p => p.2 != "unknown")) ∧
      (∀ t, t ∈ (day.filter (fun p => p.2 == "unknown")).map Prod.fst ↔
        (t, "unknown") ∈ day) ∧
      (∀ t pa, (t, pa) ∈ day.filter (fun p => p.2 != "unknown") ↔
        ((t, pa) ∈ day ∧ pa ≠ "unknown")) ∧
      List.Perm ((day.filter (fun p => p.2 == "unknown")).map Prod.fst ++
          (day.filter (fun p => p.2 != "unknown")).map Prod.fst)
        (day.map Prod.fst)) := by
  refine ⟨?_, ?_, ?_⟩
  · intro h
    unfold list_jam_spot_availabilities
    rw [h]
  · intro hwf hnone
    obtain ⟨cd, hcd⟩ := Option.isSome_iff_exists.mp hwf
    simp only [list_jam_spot_availabilities, hcd, hnone, Option.getD_none,
      if_pos rfl, if_true]
  · intro day hwf hday hne
    obtain ⟨cd, hcd⟩ := Option.isSome_iff_exists.mp hwf
    refine ⟨?_, ?_, ?_, ?_⟩
    · simp only [list_jam_spot_availabilities, hcd, hday, Option.getD_some,
        if_neg hne]
    · intro t
      constructor
      · intro ht
        obtain ⟨⟨t2, pa⟩, hmem, hfst⟩ := List.mem_map.mp ht
        obtain ⟨hmem2, hcond⟩ := List.mem_filter.mp hmem
        have hpa : pa = "unknown" := by simpa using hcond
        have ht2 : t2 = t := hfst
        rw [← ht2, ← hpa]
        exact hmem2
      · intro hmem
        exact List.mem_map.mpr ⟨(t, "unknown"),
          List.mem_filter.mpr ⟨hmem, by simp⟩, rfl⟩
    · intro t pa
      constructor
      · intro hmem
        obtain ⟨hmem2, hcond⟩ := List.mem_filter.mp hmem
        exact ⟨hmem2, by simpa using hcond⟩
      · intro ⟨hmem2, hpa⟩
        exact List.mem_filter.mpr ⟨hmem2, by simpa using hpa⟩
    · have hperm :=
        (List.filter_append_perm (fun p => p.2 == "unknown") day).map Prod.fst
      rw [List.map_append] at hperm
      exact hperm

/-- Witness for C4, exercising all three branches on the calendar where
Bob has booked 10:00-12:00 on 2024-08-01 (the specification's scenario 3):
a malformed date gives the invalid-format result, a date outside the
window gives the not-open result, and the first window day partitions into
the eleven free grid hours and Bob's two booked slots. -/
theorem claim_C4_witness :
    list_jam_spot_availabilities schedBob1012 "2024-13-40" = .invalidDate ∧
    list_jam_spot_availabilities schedBob1012 "2024-09-15" =
      .notOpenA "2024-09-15" ∧
    list_jam_spot_availabilities schedBob1012 "2024-08-01" =
      .ok "2024-08-01"
        ["08:00", "09:00", "12:00", "13:00", "14:00", "15:00", "16:00",
          "17:00", "18:00", "19:00", "20:00"]
        [("10:00", "Bob"), ("11:00", "Bob")] := by
  refine ⟨(claim_C4 schedBob1012 "2024-13-40").1 (by decide),
    (claim_C4 schedBob1012 "2024-09-15").2.1 (by decide) (by decide), ?_⟩
  have h := (claim_C4 schedBob1012 "2024-08-01").2.2
    ((lookupA schedBob1012 "2024-08-01").getD [])
    (by decide) (by decide) (by decide)
  exact h.1.trans (by decide)

/-! ### Registration lemmas for the remote agent directory -/

theorem registerAll_filter (fetch : String → Option AgentCard) :
    ∀ (addrs : List String) (acc : List (String × AgentCard)),
      addrs.foldl (register_remote_agent fetch) acc =
        (addrs.filter (fun a => (fetch a).isSome)).foldl
          (register_remote_agent fetch) acc := by
  intro addrs
  induction addrs with
  | nil => intro acc; rfl
  | cons a addrs ih =>
      intro acc
      simp only [List.foldl_cons, List.filter_cons]
      cases hf : fetch a with
      | none =>
          rw [if_neg (by simp [hf])]
          have hreg : register_remote_agent fetch acc a = acc := by
            unfold register_remote_agent
            rw [hf]
          rw [hreg, ih]
      | some c =>
          rw [if_pos (by simp [hf]), List.foldl_cons, ih]

theorem registerAll_mem (fetch : String → Option AgentCard) :
    ∀ (addrs : List String) (acc : List (String × AgentCard))
      (p : String × AgentCard),
      p ∈ addrs.foldl (register_remote_agent fetch) acc →
      p ∈ acc ∨ ∃ a ∈ addrs, fetch a = some p.2 ∧ p.1 = p.2.name := by
  intro addrs
  induction addrs with
  | nil => intro acc p hp; exact Or.inl hp
  | cons a addrs ih =>
      intro acc p hp
      simp only [List.foldl_cons] at hp
      rcases ih (register_remote_agent fetch acc a) p hp with h | h
      · unfold register_remote_agent at h
        cases hf : fetch a with
        | none => rw [hf] at h; exact Or.inl h
        | some c =>
            rw [hf] at h
            rcases mem_setA acc c.name c p h with h2 | h2
            · exact Or.inl h2
            · refine Or.inr ⟨a, List.mem_cons_self _ _, ?_, ?_⟩
              · rw [h2]; exact hf
              · rw [h2]
      · obtain ⟨a2, ha2, hfa2, hname⟩ := h
        exact Or.inr ⟨a2, List.mem_cons_of_mem _ ha2, hfa2, hname⟩

theorem registerAll_lookup_isSome (fetch : String → Option AgentCard) :
    ∀ (addrs : List String) (acc : List (String × AgentCard)) (key : String),
      ((∃ a ∈ addrs, ∃ c, fetch a = some c ∧ c.name = key) ∨
        (lookupA acc key).isSome) →
      (lookupA (addrs.foldl (register_remote_agent fetch) acc) key).isSome := by
  intro addrs
  induction addrs with
  | nil =>
      intro acc key h
      rcases h with h | h
      · obtain ⟨a, ha, -⟩ := h
        simp at ha
      · exact h
  | cons a addrs ih =>
      intro acc key h
      simp only [List.foldl_cons]
      apply ih
      rcases h with h | h
      · obtain ⟨a2, ha2, c, hc, hcname⟩ := h
        rcases List.mem_cons.mp ha2 with ha2 | ha2
        · subst ha2
          right
          unfold register_remote_agent
          rw [hc, lookupA_setA, hcname, if_pos rfl]
          rfl
        · exact Or.inl ⟨a2, ha2, c, hc, hcname⟩
      · right
        unfold register_remote_agent
        cases hf : fetch a with
        | none => exact h
        | some c =>
            rw [lookupA_setA]
            by_cases hk : key = c.name
            · rw [if_pos hk]; rfl
            · rw [if_neg hk]; exact h

/-- Claim C9: registering remote friends is best-effort.  A fetch failure
at one address (the model's `none`, covering connection errors, timeouts
and malformed descriptors, all caught and logged by the code) leaves the
directory exactly as if that address had not been configured, without
aborting the remaining registrations (first conjunct); every directory
entry comes from a successfully fetched card stored under its name (second
conjunct); every successfully fetched card is represented in the directory
under its name (third conjunct); the summary is likewise unaffected by
failed addresses (fourth conjunct); and an empty directory yields the
explicit non-empty "No friends found" marker (last conjuncts). -/
theorem claim_C9 (fetch : String → Option AgentCard) (addresses : List String) :
    async_init_components fetch addresses =
      async_init_components fetch
        (addresses.filter (fun a => (fetch a).isSome)) ∧
    (∀ p ∈ async_init_components fetch addresses,
      ∃ a ∈ addresses, fetch a = some p.2 ∧ p.1 = p.2.name) ∧
    (∀ a ∈ addresses, ∀ c, fetch a = some c →
      ∃ c2, lookupA (async_init_components fetch addresses) c.name = some c2 ∧
        ∃ a2 ∈ addresses, fetch a2 = some c2 ∧ c2.name = c.name) ∧
    refresh_agent_directory (async_init_components fetch addresses) =
      refresh_agent_directory
        (async_init_components fetch
          (addresses.filter (fun a => (fetch a).isSome))) ∧
    refresh_agent_directory [] = "No friends found" ∧
    "No friends found" ≠ "" := by
  refine ⟨registerAll_filter fetch addresses [], ?_, ?_,
    by unfold async_init_components; rw [registerAll_filter fetch addresses []],
    rfl, by decide⟩
  · intro p hp
    rcases registerAll_mem fetch addresses [] p hp with h | h
    · simp at h
    · exact h
  · intro a ha c hc
    have hsome := registerAll_lookup_isSome fetch addresses [] c.name
      (Or.inl ⟨a, ha, c, hc, rfl⟩)
    obtain ⟨c2, hc2⟩ := Option.isSome_iff_exists.mp hsome
    refine ⟨c2, hc2, ?_⟩
    have hmem := lookupA_some_mem _ _ _ hc2
    rcases registerAll_mem fetch addresses [] (c.name, c2) hmem with h | h
    · simp at h
    · obtain ⟨a2, ha2, hfa2, hname⟩ := h
      exact ⟨a2, ha2, hfa2, hname.symm⟩

/-- A concrete fetch behavior: one reachable friend, one dead address. -/
def wFetch (a : String) : Option AgentCard :=
  if a = "http://good" then some ⟨"Bob_Agent", "plays bass"⟩ else none

/-- Witness for C9: with one dead and one live address, the live friend's
card is found in the directory under its name with its provenance, and the
empty directory yields the non-empty marker. -/
theorem claim_C9_witness :
    (∃ c2, lookupA (async_init_components wFetch
          ["http://bad", "http://good"]) "Bob_Agent" = some c2 ∧
        ∃ a2 ∈ ["http://bad", "http://good"], wFetch a2 = some c2 ∧
          c2.name = "Bob_Agent") ∧
    refresh_agent_directory [] = "No friends found" ∧
    "No friends found" ≠ "" := by
  have h := claim_C9 wFetch ["http://bad", "http://good"]
  exact ⟨h.2.2.1 "http://good" (by decide) ⟨"Bob_Agent", "plays bass"⟩
      (by decide), h.2.2.2.2.1, h.2.2.2.2.2⟩

/-- Claim C10: the free sentinel `"unknown"` is accepted as a reservation
name (only the empty label is rejected): booking free, well-formed,
in-window slots under the name `"unknown"` returns success yet writes the
sentinel back, leaving the schedule exactly unchanged (first conjunct), so
the availability query still lists every one of those slots as available
(third conjunct) and a subsequent booking of the same range by any
non-empty occupant succeeds (second conjunct). -/
theorem claim_C10 (sched : Sched) (date st et : String)
    (s e : DT) (day : DayMap)
    (hs : parseDateTime (date ++ " " ++ st) = some s)
    (he : parseDateTime (date ++ " " ++ et) = some e)
    (hlt : dtKey s < dtKey e)
    (hwf : (parseDateOnly date).isSome)
    (hday : lookupA sched date = some day)
    (hfree : ∀ slot ∈ requiredSlots s e, lookupA day slot = some "unknown") :
    book_jam_session sched date st et "unknown" =
      (.booked "unknown" st et date, sched) ∧
    (∀ name2, name2 ≠ "" →
      (book_jam_session sched date st et name2).1 =
        .booked name2 st et date) ∧
    (∃ av bk, list_jam_spot_availabilities sched date = .ok date av bk ∧
      ∀ slot ∈ requiredSlots s e, slot ∈ av) := by
  have hscan : scanConflicts day (requiredSlots s e) = none :=
    (scanConflicts_eq_none_iff day _).mpr
      (fun slot hslot => by rw [hfree slot hslot]; rfl)
  have hfold : ∀ (L : List String) (m : DayMap),
      (∀ slot ∈ L, lookupA m slot = some "unknown") →
      L.foldl (fun dm slot => setA dm slot "unknown") m = m := by
    intro L
    induction L with
    | nil => intro m _; rfl
    | cons a L ih =>
        intro m hm
        simp only [List.foldl_cons]
        rw [setA_self m a _ (hm a (List.mem_cons_self _ _))]
        exact ih m (fun slot hs2 => hm slot (List.mem_cons_of_mem _ hs2))
  refine ⟨?_, ?_, ?_⟩
  · rw [book_success_eq sched date st et "unknown" s e day hs he hlt hday
      (by decide) hscan, hfold (requiredSlots s e) day hfree,
      setA_self sched date day hday]
  · intro name2 hname2
    rw [book_success_eq sched date st et name2 s e day hs he hlt hday
      hname2 hscan]
  · obtain ⟨cd, hcd⟩ := Option.isSome_iff_exists.mp hwf
    obtain ⟨rest, hhead⟩ := slotsLoop_head 1440 s e hlt (by omega)
    have hne : day ≠ [] := by
      intro hcon
      have hm := hfree (fmtHM s) (by
        unfold requiredSlots
        rw [hhead]
        exact List.mem_cons_self _ _)
      rw [hcon] at hm
      simp [lookupA] at hm
    refine ⟨(day.filter (fun p => p.2 == "unknown")).map Prod.fst,
      day.filter (fun p => p.2 != "unknown"), ?_, ?_⟩
    · simp only [list_jam_spot_availabilities, hcd, hday, Option.getD_some,
        if_neg hne]
    · intro slot hslot
      exact List.mem_map.mpr ⟨(slot, "unknown"),
        List.mem_filter.mpr ⟨lookupA_some_mem day slot _ (hfree slot hslot),
          by simp⟩, rfl⟩

/-- Witness for C10: on the fresh window, booking 10:00-12:00 under the
name "unknown" succeeds and leaves the calendar untouched, after which
Bob's booking of the very same range also succeeds. -/
theorem claim_C10_witness :
    book_jam_session sampleSched "2024-08-01" "10:00" "12:00" "unknown" =
      (.booked "unknown" "10:00" "12:00" "2024-08-01", sampleSched) ∧
    (book_jam_session sampleSched "2024-08-01" "10:00" "12:00" "Bob").1 =
      .booked "Bob" "10:00" "12:00" "2024-08-01" := by
  have h := claim_C10 sampleSched "2024-08-01" "10:00" "12:00"
    ⟨2024, 8, 1, 10, 0⟩ ⟨2024, 8, 1, 12, 0⟩
    ((lookupA sampleSched "2024-08-01").getD [])
    (by decide) (by decide) (by decide) (by decide) (by decide) (by decide)
  exact ⟨h.1, h.2.1 "Bob" (by decide)⟩

end Agent2Agent
